import Mathlib

/-
Verification development for the STWDO offer monitor
(src/stwdo_offer_monitor.ts). The extractor, differ, notifier and the
single cycle controller are embedded shallowly: the cheerio selector
engine, the URL resolver, the network and the file system appear as
explicit inputs (parsed document structure, a resolver function, fetch
and dispatch outcomes, file states), while every decision made by the
source code itself is translated line by line.
-/

namespace Stwdo

/-- Offer record extracted from the page markup, lines 109 and 116 of the
source. The id is the canonical absolute URL of the listing, title a human
readable label, url the same absolute URL as id. -/
structure Offer where
  id : String
  title : String
  url : String
deriving Repr, DecidableEq

/-- Retrieval validators persisted between cycles. -/
structure RetrievalMeta where
  etag : Option String
  lastModified : Option String
deriving Repr, DecidableEq

/-- Boolean test that a list of characters begins with the given pattern
list. -/
def charsStartWith : List Char → List Char → Bool
  | [], _ => true
  | _ :: _, [] => false
  | p :: ps, c :: cs => p == c && charsStartWith ps cs

/-- Boolean substring test on character lists. -/
def charsContain : List Char → List Char → Bool
  | ps, [] => charsStartWith ps []
  | ps, c :: cs => charsStartWith ps (c :: cs) || charsContain ps cs

/-- Substring test on strings: strIncludes hay pat is true when pat occurs
inside hay, modelling the JavaScript includes check and the alternatives of
the keyword regular expression. -/
def strIncludes (hay pat : String) : Bool :=
  charsContain pat.data hay.data

/-- JavaScript startsWith on strings. -/
def strStartsWith (s pat : String) : Bool :=
  charsStartWith pat.data s.data

/-- JavaScript trim on strings: leading and trailing whitespace removed. -/
def strTrim (s : String) : String :=
  String.mk (((s.data.dropWhile Char.isWhitespace).reverse.dropWhile Char.isWhitespace).reverse)

/-- JavaScript toLowerCase on strings, restricted to the ASCII lowering
that the keyword patterns and channel names rely on. -/
def strToLower (s : String) : String :=
  String.mk (s.data.map Char.toLower)

/-- JavaScript truthiness of an optional string: an unset variable and the
empty string are falsy, any other string is truthy. -/
def truthy : Option String → Bool
  | none => false
  | some s => !(s == "")

/-- Teaser card inside the residential offer list container, as selected by
the structural strategy at line 119. dataHref holds the data-href attribute
value, subheader the raw text of the location element, headline the raw
text of the headline element. -/
structure TeaserEl where
  dataHref : String
  subheader : String
  headline : String
deriving Repr, DecidableEq

/-- Anchor element carrying an href attribute. -/
structure AnchorEl where
  href : String
  text : String
deriving Repr, DecidableEq

/-- Parsed document as seen through the selector queries of the extractor:
the teaser cards of the structural strategy, the anchor lists of the four
generic container selectors of line 136 in order (none when the selector
matches no element), and the anchors of the whole document. -/
structure Doc where
  teasers : List TeaserEl
  containerAnchors : List (Option (List AnchorEl))
  allAnchors : List AnchorEl
deriving Repr, DecidableEq

/-- JavaScript Map.set keyed by offer id on an insertion ordered list: an
existing key keeps its position and receives the new record, a fresh key is
appended at the end. Used by the structural strategy at line 131. -/
def mapSet (l : List Offer) (o : Offer) : List Offer :=
  if l.any (fun x => x.id == o.id) then l.map (fun x => if x.id == o.id then o else x)
  else l ++ [o]

/-- Guarded insertion used by the fallback strategy at lines 161 to 163:
the record is added only when the id is not yet present. -/
def mapSetIfAbsent (l : List Offer) (o : Offer) : List Offer :=
  if l.any (fun x => x.id == o.id) then l else l ++ [o]

/-- Resolution of an href against the monitor base URL, lines 129 and 159:
a link that already starts with http is kept, anything else goes through
the URL resolver collaborator. -/
def absoluteOf (resolve : String → String) (href : String) : String :=
  if strStartsWith href "http" then href else resolve href

/-- Offer built from one teaser card, lines 121 to 132 of the source: skip
the card when the data-href attribute is falsy, compose the title from
location and headline, resolve the link, and fall back to the absolute URL
when the composed title is empty. -/
def teaserOffer (resolve : String → String) (t : TeaserEl) : Option Offer :=
  if t.dataHref == "" then none
  else
    let location := strTrim t.subheader
    let title := strTrim t.headline
    let fullTitle := if location == "" then title else location ++ ": " ++ title
    let absolute := absoluteOf resolve t.dataHref
    some { id := absolute, title := if fullTitle == "" then absolute else fullTitle,
           url := absolute }

/-- One step of the structural pass over the teaser cards. -/
def structStep (resolve : String → String) (acc : List Offer) (t : TeaserEl) : List Offer :=
  match teaserOffer resolve t with
  | none => acc
  | some o => mapSet acc o

/-- Structural strategy, lines 119 to 132: fold every teaser card into the
offers map. -/
def structuralOffers (resolve : String → String) (ts : List TeaserEl) : List Offer :=
  ts.foldl (structStep resolve) []

/-- Internal link test of line 155. -/
def isInternal (href : String) : Bool :=
  strStartsWith href "/" || strIncludes href "stwdo.de"

/-- Case insensitive keyword test of line 156, modelling the regular
expression with alternatives wohn, zimmer, apartment, angebot, bewerb and
the i flag. -/
def hasKeywords (s : String) : Bool :=
  let l := strToLower s
  strIncludes l "wohn" || strIncludes l "zimmer" || strIncludes l "apartment" ||
    strIncludes l "angebot" || strIncludes l "bewerb"

/-- One step of the fallback pass over the anchors, lines 150 to 165. -/
def fallbackStep (resolve : String → String) (acc : List Offer) (a : AnchorEl) : List Offer :=
  let href := a.href
  let text := strTrim a.text
  if href == "" then acc
  else if isInternal href && hasKeywords (text ++ href) then
    let absolute := absoluteOf resolve href
    mapSetIfAbsent acc { id := absolute, title := if text == "" then absolute else text,
                         url := absolute }
  else acc

/-- Fallback strategy fold over the chosen anchors. -/
def fallbackOffers (resolve : String → String) (anchors : List AnchorEl) : List Offer :=
  anchors.foldl (fallbackStep resolve) []

/-- Container selection loop of lines 136 to 148: walk the container
selectors in order, remember the anchors of the last existing container,
and stop at the first container whose anchor list is not empty. -/
def anchorLoop : List (Option (List AnchorEl)) → Option (List AnchorEl) → Option (List AnchorEl)
  | [], acc => acc
  | none :: rest, acc => anchorLoop rest acc
  | some as :: rest, _ => if as.isEmpty then anchorLoop rest (some as) else some as

/-- Anchors the fallback strategy iterates over: the first container with
anchors, or the whole document when no container produced any. -/
def chooseAnchors (doc : Doc) : List AnchorEl :=
  match anchorLoop doc.containerAnchors none with
  | none => doc.allAnchors
  | some as => if as.isEmpty then doc.allAnchors else as

/-- Extractor, lines 109 to 169: the structural strategy wins when it
produced at least one record, otherwise the heuristic fallback runs over
the chosen anchors into the still empty offers map. -/
def extractOffersFromHtml (resolve : String → String) (doc : Doc) : List Offer :=
  let structural := structuralOffers resolve doc.teasers
  if structural.isEmpty then fallbackOffers resolve (chooseAnchors doc) else structural

/-- Observable states of the persisted seen set file: missing file, a file
that fs readJson cannot parse, a parsed payload whose offers field is not
an array of strings, or a well formed payload. -/
inductive SeenFileState where
  | absent
  | unparseable
  | wrongShape
  | stored (offers : List String)
deriving Repr, DecidableEq

/-- loadLastSeen of lines 78 to 88: an absent file gives the empty list, a
file that readJson cannot parse raises and is caught at line 84 which also
gives the empty list after a warning, a parsed payload without a proper
offers array gives the empty list, and otherwise the stored ids are
returned as they are. -/
def loadLastSeen : SeenFileState → List String
  | .absent => []
  | .unparseable => []
  | .wrongShape => []
  | .stored offers => offers

/-- loadLastSeen as the cycle controller awaits it at line 252: because
loadLastSeen catches every read error internally, the call never raises,
so the guarding try catch of lines 250 to 256 never takes its error
branch. -/
def loadLastSeenE (s : SeenFileState) : Except String (List String) :=
  .ok (loadLastSeen s)

/-- Observable states of the persisted meta file. -/
inductive MetaFileState where
  | absent
  | unparseable
  | stored (meta : RetrievalMeta)
deriving Repr, DecidableEq

/-- loadMeta of lines 96 to 103: missing or unreadable file downgrades to
the empty meta object. -/
def loadMeta : MetaFileState → RetrievalMeta
  | .absent => ⟨none, none⟩
  | .unparseable => ⟨none, none⟩
  | .stored m => m

/-- Insertion into a JavaScript Set, modelled as an insertion ordered
duplicate free list: a value already present leaves the set unchanged. -/
def jsSetInsert (s : List String) (x : String) : List String :=
  if s.contains x then s else s ++ [x]

/-- Construction of a JavaScript Set from an array, line 258. -/
def jsSetFromList (l : List String) : List String :=
  l.foldl jsSetInsert []

/-- Diff step of line 261: keep the offers whose id is not in the seen
set, in extraction order. The source expression is a pure filter over the
extracted array, it mutates neither the array nor the set. -/
def differ (offers : List Offer) (seen : List String) : List Offer :=
  offers.filter (fun o => !(seen.contains o.id))

/-- Notification configuration captured from the environment at startup,
lines 66 to 73. The method field holds the already lowercased value of
NOTIFY_METHOD. -/
structure NotifyConfig where
  method : String
  telegramBotToken : Option String
  telegramChatId : Option String
  webhookUrl : Option String
deriving Repr, DecidableEq

/-- Lowercasing of the NOTIFY_METHOD environment value at startup, line 66,
with the JavaScript default to console on an unset or empty variable. -/
def NOTIFY_METHOD (env : Option String) : String :=
  strToLower (match env with
    | none => "console"
    | some s => if s == "" then "console" else s)

/-- Network call attempted by a notification channel, with the payload the
source would post. -/
inductive ChannelAttempt where
  | telegram (chatId : String) (text : String)
  | webhook (url : String) (content : String)
deriving Repr, DecidableEq

/-- Observable behavior of one notifyNewOffers call: the formatted message
when one was built, the network call when one was attempted, the console
log lines and the console error lines. -/
structure NotifyTrace where
  message : Option String
  attempt : Option ChannelAttempt
  logs : List String
  errors : List String
deriving Repr, DecidableEq

/-- Consolidated message of lines 174 and 175: a timestamped header and one
bulleted title and url line per offer. -/
def formatMessage (now : String) (newOffers : List Offer) : String :=
  let lines := newOffers.map (fun o => "• " ++ o.title ++ " — " ++ o.url)
  "Neue Wohnungsangebote gefunden (" ++ now ++ "):\n" ++ String.intercalate "\n" lines

/-- notifyNewOffers of lines 171 to 216. The net argument is the outcome of
the one network call a channel would make; every use of it sits inside a
try catch of the source, so the function never produces an error value.
An empty offer list returns before any work at line 172. The switch on the
lowercased method falls through to the console channel for every value
other than telegram, webhook and email. -/
def notifyNewOffersE (cfg : NotifyConfig) (net : Except String Unit) (now : String)
    (newOffers : List Offer) : Except String NotifyTrace :=
  if newOffers.isEmpty then .ok ⟨none, none, [], []⟩
  else
    let message := formatMessage now newOffers
    if cfg.method == "telegram" then
      if !truthy cfg.telegramBotToken || !truthy cfg.telegramChatId then
        .ok ⟨some message, none, [],
          ["Telegram selected but TELEGRAM_BOT_TOKEN or TELEGRAM_CHAT_ID is missing in env."]⟩
      else
        match net with
        | .ok _ =>
            .ok ⟨some message, some (.telegram (cfg.telegramChatId.getD "") message),
              ["Sent Telegram notification"], []⟩
        | .error e =>
            .ok ⟨some message, some (.telegram (cfg.telegramChatId.getD "") message),
              [], ["Telegram notify error: " ++ e]⟩
    else if cfg.method == "webhook" then
      if !truthy cfg.webhookUrl then
        .ok ⟨some message, none, [], ["Webhook selected but WEBHOOK_URL is missing in env."]⟩
      else
        match net with
        | .ok _ =>
            .ok ⟨some message, some (.webhook (cfg.webhookUrl.getD "") message),
              ["Sent webhook notification"], []⟩
        | .error e =>
            .ok ⟨some message, some (.webhook (cfg.webhookUrl.getD "") message),
              [], ["Webhook notify error: " ++ e]⟩
    else if cfg.method == "email" then
      .ok ⟨some message, none,
        ["Email notify selected but email sending not implemented in template. Message would be: "
          ++ message], []⟩
    else
      .ok ⟨some message, none, [message], []⟩

/-- Outcome of the conditional GET, classified as the source does at lines
230 and 236: a 304 response, a 2xx response carrying the parsed document
and the validator response headers, or anything else which axios raises
and the catch of line 273 absorbs. -/
inductive FetchOutcome where
  | notModified
  | content (doc : Doc) (etagHeader lastModifiedHeader : Option String)
  | fetchError (msg : String)
deriving Repr, DecidableEq

/-- Observable behavior of one checkOnce cycle: the meta file write if one
happened, the seen set file write if one happened, whether the extractor
and the diff filter ran, the notify trace when notifyNewOffers was called,
and the console error and log lines. -/
structure CycleOutput where
  metaWrite : Option RetrievalMeta
  seenWrite : Option (List String)
  extractorCalled : Bool
  differCalled : Bool
  notify : Option NotifyTrace
  errors : List String
  logs : List String
deriving Repr, DecidableEq

/-- checkOnce of lines 219 to 276, with the outside world passed in: the
URL resolver, the two file states, the fetch outcome, the notification
configuration, the outcome of the channel network call and the formatted
current time. A 304 returns at line 238 before any write. On content the
meta is updated field by field only from truthy response headers and saved
at line 245, the extractor runs, the seen set is loaded through the never
failing loadLastSeen, the diff filter runs, and only when it finds new
offers the notifier is awaited and the enlarged seen set is saved. -/
def checkOnce (resolve : String → String) (metaFile : MetaFileState) (seenFile : SeenFileState)
    (fetch : FetchOutcome) (cfg : NotifyConfig) (net : Except String Unit) (now : String) :
    CycleOutput :=
  let meta := loadMeta metaFile
  match fetch with
  | .notModified =>
      ⟨none, none, false, false, none, [], ["Not modified (304). No changes."]⟩
  | .fetchError e =>
      ⟨none, none, false, false, none, ["Fetch or processing error: " ++ e], []⟩
  | .content doc etagHeader lastModifiedHeader =>
      let newMeta : RetrievalMeta :=
        ⟨if truthy etagHeader then etagHeader else meta.etag,
         if truthy lastModifiedHeader then lastModifiedHeader else meta.lastModified⟩
      let offers := extractOffersFromHtml resolve doc
      match loadLastSeenE seenFile with
      | .error _ =>
          ⟨some newMeta, none, true, false, none,
           ["Failed to load last seen offers, skipping this check to avoid data loss."], []⟩
      | .ok lastOffers =>
          let lastSeenIds := jsSetFromList lastOffers
          let newOffers := differ offers lastSeenIds
          if newOffers.isEmpty then
            ⟨some newMeta, none, true, true, none, [], ["No new offers"]⟩
          else
            match notifyNewOffersE cfg net now newOffers with
            | .error e =>
                ⟨some newMeta, none, true, true, none,
                 ["Fetch or processing error: " ++ e], ["Detected new offers"]⟩
            | .ok t =>
                ⟨some newMeta,
                 some (newOffers.foldl (fun s o => jsSetInsert s o.id) lastSeenIds),
                 true, true, some t, [], ["Detected new offers"]⟩

/-- Projection of the id column of an offer list. -/
def idsOf (l : List Offer) : List String :=
  l.map (fun o => o.id)

theorem contains_idsOf (l : List Offer) (i : String) :
    (idsOf l).contains i = l.any (fun x => x.id == i) := by
  rw [Bool.eq_iff_iff]
  simp [idsOf]

theorem mem_jsSetInsert (s : List String) (x y : String) :
    y ∈ jsSetInsert s x ↔ y ∈ s ∨ y = x := by
  unfold jsSetInsert
  split
  · rename_i h
    have hx : x ∈ s := by simpa using h
    constructor
    · exact Or.inl
    · rintro (hy | rfl)
      · exact hy
      · exact hx
  · simp

theorem nodup_jsSetInsert (s : List String) (x : String) (h : s.Nodup) :
    (jsSetInsert s x).Nodup := by
  unfold jsSetInsert
  split
  · exact h
  · rename_i hc
    have hx : x ∉ s := by simpa using hc
    simp [List.nodup_append, h, hx]

theorem mem_foldl_jsSetInsert (l : List String) (acc : List String) (y : String) :
    y ∈ l.foldl jsSetInsert acc ↔ y ∈ acc ∨ y ∈ l := by
  induction l generalizing acc with
  | nil => simp
  | cons x xs ih =>
    simp only [List.foldl_cons, ih, mem_jsSetInsert, List.mem_cons]
    tauto

theorem nodup_foldl_jsSetInsert (l : List String) (acc : List String) (h : acc.Nodup) :
    (l.foldl jsSetInsert acc).Nodup := by
  induction l generalizing acc with
  | nil => exact h
  | cons x xs ih => exact ih _ (nodup_jsSetInsert _ _ h)

theorem mem_jsSetFromList (l : List String) (y : String) :
    y ∈ jsSetFromList l ↔ y ∈ l := by
  unfold jsSetFromList
  rw [mem_foldl_jsSetInsert]
  simp

theorem mem_foldl_insertIds (os : List Offer) (acc : List String) (y : String) :
    y ∈ os.foldl (fun s o => jsSetInsert s o.id) acc ↔ y ∈ acc ∨ y ∈ idsOf os := by
  induction os generalizing acc with
  | nil => simp [idsOf]
  | cons o os ih =>
    simp only [List.foldl_cons, ih, mem_jsSetInsert, idsOf, List.map_cons, List.mem_cons]
    tauto

theorem idsOf_mapSet (l : List Offer) (o : Offer) :
    idsOf (mapSet l o) = jsSetInsert (idsOf l) o.id := by
  unfold mapSet jsSetInsert
  rw [contains_idsOf]
  by_cases h : l.any (fun x => x.id == o.id) = true
  · rw [if_pos h, if_pos h]
    unfold idsOf
    rw [List.map_map]
    apply List.map_congr_left
    intro x hx
    by_cases hxo : x.id = o.id <;> simp [hxo]
  · rw [if_neg h, if_neg h]
    unfold idsOf
    simp

theorem idsOf_mapSetIfAbsent (l : List Offer) (o : Offer) :
    idsOf (mapSetIfAbsent l o) = jsSetInsert (idsOf l) o.id := by
  unfold mapSetIfAbsent jsSetInsert
  rw [contains_idsOf]
  by_cases h : l.any (fun x => x.id == o.id) = true
  · rw [if_pos h, if_pos h]
  · rw [if_neg h, if_neg h]
    unfold idsOf
    simp

/-- Acceptance test of the fallback strategy, lines 153 to 158 combined: a
non empty href that is internal and whose trimmed text concatenated with
the href matches the keyword pattern. -/
def acceptAnchor (a : AnchorEl) : Bool :=
  !(a.href == "") && (isInternal a.href && hasKeywords (strTrim a.text ++ a.href))

/-- Offer record the fallback strategy builds from an accepted anchor. -/
def anchorOfferRec (resolve : String → String) (a : AnchorEl) : Offer :=
  let text := strTrim a.text
  let absolute := absoluteOf resolve a.href
  ⟨absolute, if text == "" then absolute else text, absolute⟩

theorem fallbackStep_eq (resolve : String → String) (acc : List Offer) (a : AnchorEl) :
    fallbackStep resolve acc a =
      if acceptAnchor a then mapSetIfAbsent acc (anchorOfferRec resolve a) else acc := by
  by_cases h1 : (a.href == "") = true
  · simp [fallbackStep, acceptAnchor, h1]
  · by_cases h2 : (isInternal a.href && hasKeywords (strTrim a.text ++ a.href)) = true
    · simp [fallbackStep, acceptAnchor, anchorOfferRec, h1, h2]
    · simp [fallbackStep, acceptAnchor, h1, h2]

theorem idsOf_foldl_structStep (resolve : String → String) (ts : List TeaserEl)
    (acc : List Offer) :
    idsOf (ts.foldl (structStep resolve) acc) =
      ((ts.filterMap (teaserOffer resolve)).map (fun o => o.id)).foldl jsSetInsert (idsOf acc) := by
  induction ts generalizing acc with
  | nil => simp
  | cons t ts ih =>
    simp only [List.foldl_cons, List.filterMap_cons]
    cases h : teaserOffer resolve t with
    | none => simp [structStep, h, ih]
    | some o => simp [structStep, h, ih, idsOf_mapSet]

theorem idsOf_foldl_fallbackStep (resolve : String → String) (as : List AnchorEl)
    (acc : List Offer) :
    idsOf (as.foldl (fallbackStep resolve) acc) =
      ((as.filter acceptAnchor).map (fun a => absoluteOf resolve a.href)).foldl
        jsSetInsert (idsOf acc) := by
  induction as generalizing acc with
  | nil => simp
  | cons a as ih =>
    simp only [List.foldl_cons, List.filter_cons]
    rw [fallbackStep_eq]
    by_cases h : acceptAnchor a = true
    · simp [h, ih, idsOf_mapSetIfAbsent, anchorOfferRec]
    · simp [h, ih]

/-- Insertion ordered first occurrence deduplication of a list of ids. -/
def dedupFirst (l : List String) : List String :=
  l.foldl jsSetInsert []

/-- Candidate ids a single extraction pass feeds into the offers map, in
document order: the resolved hrefs of the accepted anchors when the
structural strategy produced nothing, otherwise the resolved teaser
links. -/
def candidateIds (resolve : String → String) (doc : Doc) : List String :=
  if (structuralOffers resolve doc.teasers).isEmpty then
    ((chooseAnchors doc).filter acceptAnchor).map (fun a => absoluteOf resolve a.href)
  else (doc.teasers.filterMap (teaserOffer resolve)).map (fun o => o.id)

theorem idsOf_extract (resolve : String → String) (doc : Doc) :
    idsOf (extractOffersFromHtml resolve doc) = dedupFirst (candidateIds resolve doc) := by
  simp only [extractOffersFromHtml, candidateIds, dedupFirst]
  by_cases h : (structuralOffers resolve doc.teasers).isEmpty = true
  · rw [if_pos h, if_pos h]
    unfold fallbackOffers
    rw [idsOf_foldl_fallbackStep]
    simp [idsOf]
  · rw [if_neg h, if_neg h]
    unfold structuralOffers
    rw [idsOf_foldl_structStep]
    simp [idsOf]

theorem notifyNewOffersE_ok (cfg : NotifyConfig) (net : Except String Unit) (now : String)
    (newOffers : List Offer) : ∃ t, notifyNewOffersE cfg net now newOffers = .ok t := by
  unfold notifyNewOffersE
  repeat' split
  all_goals exact ⟨_, rfl⟩

theorem mem_differ (O : List Offer) (S : List String) (o : Offer) :
    o ∈ differ O S ↔ o ∈ O ∧ o.id ∉ S := by
  unfold differ
  simp [List.mem_filter]

/-- Identity resolver used by the concrete evaluations. -/
def resolveId : String → String := fun s => s

/-- Console configuration used by the concrete evaluations. -/
def consoleCfg : NotifyConfig := ⟨"console", none, none, none⟩

/-- Document with a single teaser card, used by the concrete evaluations. -/
def oneTeaserDoc : Doc := ⟨[⟨"http://x", "", "T"⟩], [], []⟩

/-- C3: for every seen set S and extracted sequence O the diff step returns
exactly the elements of O whose id is not in S, preserving the original
order of O (the result is a sublist of O); being a pure array filter it
modifies neither O nor S. -/
theorem differ_spec (O : List Offer) (S : List String) :
    (differ O S).Sublist O ∧ ∀ o, o ∈ differ O S ↔ o ∈ O ∧ o.id ∉ S := by
  constructor
  · exact List.filter_sublist O
  · exact fun o => mem_differ O S o

theorem differ_spec_witness :
    (⟨"a", "t", "a"⟩ : Offer) ∈ differ [⟨"a", "t", "a"⟩, ⟨"b", "u", "b"⟩] ["b"] :=
  ((differ_spec [⟨"a", "t", "a"⟩, ⟨"b", "u", "b"⟩] ["b"]).2 ⟨"a", "t", "a"⟩).mpr (by decide)

/-- C5: a 304 response short circuits the cycle: the extractor, the diff
filter and the notifier are not invoked, and neither the meta file nor the
seen set file is written. -/
theorem checkOnce_notModified (resolve : String → String) (metaFile : MetaFileState)
    (seenFile : SeenFileState) (cfg : NotifyConfig) (net : Except String Unit) (now : String) :
    (checkOnce resolve metaFile seenFile .notModified cfg net now).metaWrite = none ∧
    (checkOnce resolve metaFile seenFile .notModified cfg net now).seenWrite = none ∧
    (checkOnce resolve metaFile seenFile .notModified cfg net now).extractorCalled = false ∧
    (checkOnce resolve metaFile seenFile .notModified cfg net now).differCalled = false ∧
    (checkOnce resolve metaFile seenFile .notModified cfg net now).notify = none := by
  simp [checkOnce]

/-- C9: calling the notification dispatcher with an empty offer sequence is
a no op for every configuration, network outcome and timestamp: no message
is formatted, no channel is contacted and nothing is logged. -/
theorem notify_empty_noop (cfg : NotifyConfig) (net : Except String Unit) (now : String) :
    notifyNewOffersE cfg net now [] = .ok ⟨none, none, [], []⟩ := by
  rfl

/-- C4: whenever a cycle writes the seen set, the written set contains
every id loaded at the start of the cycle (ids are never removed), and on
a content fetch every written id comes either from the loaded set or from
the ids of the extracted offers (ids are only ever added). -/
theorem checkOnce_seen_monotone :
    (∀ resolve metaFile seenFile fetch cfg net now w,
        (checkOnce resolve metaFile seenFile fetch cfg net now).seenWrite = some w →
        ∀ x, x ∈ loadLastSeen seenFile → x ∈ w) ∧
    (∀ resolve metaFile seenFile doc eh lmh cfg net now w,
        (checkOnce resolve metaFile seenFile (.content doc eh lmh) cfg net now).seenWrite =
          some w →
        ∀ x, x ∈ w →
          x ∈ loadLastSeen seenFile ∨ x ∈ idsOf (extractOffersFromHtml resolve doc)) := by
  constructor
  · intro resolve metaFile seenFile fetch cfg net now w h x hx
    cases fetch with
    | notModified => simp [checkOnce] at h
    | fetchError e => simp [checkOnce] at h
    | content doc eh lmh =>
      simp only [checkOnce, loadLastSeenE] at h
      split at h
      · simp at h
      · split at h
        · simp at h
        · simp only [Option.some.injEq] at h
          subst h
          exact (mem_foldl_insertIds _ _ _).mpr
            (Or.inl ((mem_jsSetFromList _ _).mpr hx))
  · intro resolve metaFile seenFile doc eh lmh cfg net now w h x hx
    simp only [checkOnce, loadLastSeenE] at h
    split at h
    · simp at h
    · split at h
      · simp at h
      · simp only [Option.some.injEq] at h
        subst h
        rcases (mem_foldl_insertIds _ _ _).mp hx with hseen | hnew
        · exact Or.inl ((mem_jsSetFromList _ _).mp hseen)
        · right
          simp only [idsOf, List.mem_map] at hnew ⊢
          obtain ⟨o, ho, rfl⟩ := hnew
          exact ⟨o, ((mem_differ _ _ o).mp ho).1, rfl⟩

theorem checkOnce_seen_monotone_witness :
    "old" ∈ (["old", "http://x"] : List String) :=
  checkOnce_seen_monotone.1 resolveId .absent (.stored ["old"])
    (.content oneTeaserDoc none none) consoleCfg (.ok ()) "t" ["old", "http://x"]
    (by decide) "old" (by decide)

/-- Telegram configuration with credentials, used by the concrete
evaluations. -/
def tgCfg : NotifyConfig := ⟨"telegram", some "token", some "42", none⟩

/-- C6: the notify step never produces an error on a non empty offer list,
missing credentials and failing dispatch calls are logged and swallowed;
consequently on a content cycle with new offers the seen set write happens
and its value does not depend on the notification configuration or on the
outcome of the channel network call, both of which are universally
quantified here and absent from the written value. -/
theorem notify_isolation :
    (∀ cfg net now newOffers, newOffers ≠ ([] : List Offer) →
        ∃ t, notifyNewOffersE cfg net now newOffers = .ok t) ∧
    (∀ resolve metaFile seenFile doc eh lmh cfg net now,
        differ (extractOffersFromHtml resolve doc) (jsSetFromList (loadLastSeen seenFile)) ≠
          [] →
        (checkOnce resolve metaFile seenFile (.content doc eh lmh) cfg net now).seenWrite =
          some ((differ (extractOffersFromHtml resolve doc)
                (jsSetFromList (loadLastSeen seenFile))).foldl
              (fun s o => jsSetInsert s o.id) (jsSetFromList (loadLastSeen seenFile)))) := by
  constructor
  · intro cfg net now newOffers _
    exact notifyNewOffersE_ok cfg net now newOffers
  · intro resolve metaFile seenFile doc eh lmh cfg net now hne
    obtain ⟨t, ht⟩ := notifyNewOffersE_ok cfg net now
      (differ (extractOffersFromHtml resolve doc) (jsSetFromList (loadLastSeen seenFile)))
    simp [checkOnce, loadLastSeenE, ht, hne]

theorem notify_isolation_witness :
    (checkOnce resolveId .absent (.stored []) (.content oneTeaserDoc none none) tgCfg
        (.error "network down") "t").seenWrite = some ["http://x"] :=
  Eq.trans
    (notify_isolation.2 resolveId .absent (.stored []) oneTeaserDoc none none tgCfg
      (.error "network down") "t" (by decide))
    (by decide)

/-- C1, behavior of the code at the failing input: with a seen set file
that exists but cannot be parsed and a page carrying one offer, the cycle
does not abort. loadLastSeen catches the parse failure at line 84 and
returns the empty list, so the abort branch of lines 253 to 255 is dead
code: the extractor and the diff run, the notifier is invoked, the meta
file is written, and the seen set file is overwritten with only the ids of
the current page, so every previously seen id is re reported and lost. -/
theorem corruptSeen_cycle_proceeds :
    (checkOnce resolveId .absent .unparseable (.content oneTeaserDoc none none) consoleCfg
        (.ok ()) "t").extractorCalled = true ∧
    (checkOnce resolveId .absent .unparseable (.content oneTeaserDoc none none) consoleCfg
        (.ok ()) "t").differCalled = true ∧
    (checkOnce resolveId .absent .unparseable (.content oneTeaserDoc none none) consoleCfg
        (.ok ()) "t").notify ≠ none ∧
    (checkOnce resolveId .absent .unparseable (.content oneTeaserDoc none none) consoleCfg
        (.ok ()) "t").metaWrite = some ⟨none, none⟩ ∧
    (checkOnce resolveId .absent .unparseable (.content oneTeaserDoc none none) consoleCfg
        (.ok ()) "t").seenWrite = some ["http://x"] := by
  refine ⟨by decide, by decide, by decide, by decide, by decide⟩

/-- Document whose structural strategy sees two teaser cards with the same
link but different headlines. -/
def dupTeaserDoc : Doc := ⟨[⟨"http://a", "", "T1"⟩, ⟨"http://a", "", "T2"⟩], [], []⟩

/-- C2, counterexample to the claim as stated: in the structural strategy a
later candidate with an already recorded id is not discarded, its record
overwrites the stored one, so the surviving title is the title of the
second occurrence, not of the first. -/
theorem structural_overwrite_counterexample :
    extractOffersFromHtml resolveId dupTeaserDoc = [⟨"http://a", "T2", "http://a"⟩] ∧
    (⟨"http://a", "T2", "http://a"⟩ : Offer) ≠ ⟨"http://a", "T1", "http://a"⟩ := by
  refine ⟨by decide, by decide⟩

/-- C2 amended: in every extraction pass the output ids are pairwise
distinct and list the candidates in insertion order of first appearance;
in the heuristic fallback strategy a later candidate with an already
recorded id is discarded and the stored record is kept; in the structural
strategy a later candidate with an already recorded id keeps the first
occurrence position in the sequence but its record, title included,
replaces the stored one. -/
theorem extractor_dedup :
    (∀ resolve doc, (idsOf (extractOffersFromHtml resolve doc)).Nodup) ∧
    (∀ resolve doc, idsOf (extractOffersFromHtml resolve doc) =
        dedupFirst (candidateIds resolve doc)) ∧
    (∀ resolve as a, acceptAnchor a = true →
        absoluteOf resolve a.href ∈ idsOf (fallbackOffers resolve as) →
        fallbackOffers resolve (as ++ [a]) = fallbackOffers resolve as) ∧
    (∀ resolve ts t o, teaserOffer resolve t = some o →
        o.id ∈ idsOf (structuralOffers resolve ts) →
        structuralOffers resolve (ts ++ [t]) =
          (structuralOffers resolve ts).map (fun x => if x.id == o.id then o else x)) := by
  refine ⟨?_, ?_, ?_, ?_⟩
  · intro resolve doc
    rw [idsOf_extract]
    exact nodup_foldl_jsSetInsert _ _ List.nodup_nil
  · intro resolve doc
    exact idsOf_extract resolve doc
  · intro resolve as a hacc hmem
    have hc : ((as.foldl (fallbackStep resolve) []).any
        (fun x => x.id == (anchorOfferRec resolve a).id)) = true := by
      rw [← contains_idsOf]
      have hid : (anchorOfferRec resolve a).id = absoluteOf resolve a.href := rfl
      rw [hid]
      simpa [fallbackOffers] using hmem
    unfold fallbackOffers
    rw [List.foldl_append, List.foldl_cons, List.foldl_nil, fallbackStep_eq, if_pos hacc]
    unfold mapSetIfAbsent
    rw [if_pos hc]
  · intro resolve ts t o hsome hmem
    have hc : ((ts.foldl (structStep resolve) []).any (fun x => x.id == o.id)) = true := by
      rw [← contains_idsOf]
      simpa [structuralOffers] using hmem
    unfold structuralOffers
    rw [List.foldl_append, List.foldl_cons, List.foldl_nil]
    simp only [structStep, hsome]
    unfold mapSet
    rw [if_pos hc]

theorem extractor_dedup_witness :
    fallbackOffers resolveId [⟨"/wohnen/1", "A"⟩, ⟨"/wohnen/1", "B"⟩] =
      fallbackOffers resolveId [⟨"/wohnen/1", "A"⟩] :=
  extractor_dedup.2.2.1 resolveId [⟨"/wohnen/1", "A"⟩] ⟨"/wohnen/1", "B"⟩ (by decide)
    (by decide)

/-- Resolver behaving like the URL constructor of the source for root
relative links against the monitor base URL. -/
def resolveStwdo : String → String := fun href => "https://www.stwdo.de" ++ href

/-- Scenario F document: no teaser cards, one anchor inside the first
generic container. -/
def scenarioFDoc : Doc := ⟨[], [some [⟨"/wohnen/angebot/123", "Zimmer frei"⟩]], []⟩

/-- C7: the heuristic fallback runs only when the structural strategy
yields zero records; when it runs, an id appears in the output exactly
when some chosen anchor is accepted, that is its href is non empty and
internal and the trimmed link text concatenated with the href matches the
case insensitive keyword pattern, and the id is the resolved href;
concretely, markup with no teaser elements and one anchor with href
/wohnen/angebot/123 and text Zimmer frei yields exactly one offer whose id
is that href resolved to an absolute URL. -/
theorem fallback_characterization :
    (∀ resolve doc, structuralOffers resolve doc.teasers ≠ [] →
        extractOffersFromHtml resolve doc = structuralOffers resolve doc.teasers) ∧
    (∀ resolve doc, structuralOffers resolve doc.teasers = [] →
        ∀ i, i ∈ idsOf (extractOffersFromHtml resolve doc) ↔
          ∃ a ∈ chooseAnchors doc, acceptAnchor a = true ∧ absoluteOf resolve a.href = i) ∧
    extractOffersFromHtml resolveStwdo scenarioFDoc =
      [⟨"https://www.stwdo.de/wohnen/angebot/123", "Zimmer frei",
        "https://www.stwdo.de/wohnen/angebot/123"⟩] := by
  refine ⟨?_, ?_, by decide⟩
  · intro resolve doc h
    simp [extractOffersFromHtml, h]
  · intro resolve doc h i
    have he : (structuralOffers resolve doc.teasers).isEmpty = true := by simp [h]
    simp only [extractOffersFromHtml, he, if_true]
    unfold fallbackOffers
    rw [show (List.foldl (fallbackStep resolve) [] (chooseAnchors doc)) =
        ((chooseAnchors doc).foldl (fallbackStep resolve) []) from rfl]
    have hids := idsOf_foldl_fallbackStep resolve (chooseAnchors doc) []
    rw [hids]
    rw [mem_foldl_jsSetInsert]
    simp [idsOf, List.mem_map, List.mem_filter, and_assoc]

theorem fallback_characterization_witness :
    "https://www.stwdo.de/wohnen/angebot/123" ∈
      idsOf (extractOffersFromHtml resolveStwdo scenarioFDoc) :=
  (fallback_characterization.2.1 resolveStwdo scenarioFDoc (by decide)
      "https://www.stwdo.de/wohnen/angebot/123").mpr
    ⟨⟨"/wohnen/angebot/123", "Zimmer frei"⟩, by decide, by decide, by decide⟩

/-- Meta file holding a previously stored validator. -/
def priorMetaFile : MetaFileState := .stored ⟨some "etagOld", none⟩

/-- Document with nothing extractable. -/
def emptyDoc : Doc := ⟨[], [], []⟩

/-- C8, counterexample to the claim as stated: a 2xx response whose etag
header is present but carries the empty string does not hand its value to
the persisted meta; the JavaScript truthiness test of line 243 skips the
empty string and the prior stored value is kept instead. -/
theorem meta_empty_header_counterexample :
    (checkOnce resolveId priorMetaFile .absent (.content emptyDoc (some "") none) consoleCfg
        (.ok ()) "t").metaWrite = some ⟨some "etagOld", none⟩ ∧
    (some "etagOld" : Option String) ≠ some "" := by
  refine ⟨by decide, by decide⟩

/-- C8 amended: on a 2xx fetch the meta is always persisted and takes a
validator from the response header exactly when the header is present with
a non empty value, keeping the prior stored value when the header is
absent or empty. -/
theorem meta_update (resolve : String → String) (metaFile : MetaFileState)
    (seenFile : SeenFileState) (doc : Doc) (eh lmh : Option String) (cfg : NotifyConfig)
    (net : Except String Unit) (now : String) :
    ∃ m, (checkOnce resolve metaFile seenFile (.content doc eh lmh) cfg net now).metaWrite =
        some m ∧
      (truthy eh = true → m.etag = eh) ∧
      (truthy eh = false → m.etag = (loadMeta metaFile).etag) ∧
      (truthy lmh = true → m.lastModified = lmh) ∧
      (truthy lmh = false → m.lastModified = (loadMeta metaFile).lastModified) := by
  refine ⟨⟨if truthy eh then eh else (loadMeta metaFile).etag,
           if truthy lmh then lmh else (loadMeta metaFile).lastModified⟩, ?_, ?_, ?_, ?_, ?_⟩
  · simp only [checkOnce, loadLastSeenE]
    split
    · rfl
    · split
      · rfl
      · rfl
  · intro h
    simp [h]
  · intro h
    simp [h]
  · intro h
    simp [h]
  · intro h
    simp [h]

theorem meta_update_witness :
    truthy (some "W1") = true ∧
    (∃ m, (checkOnce resolveId priorMetaFile .absent
        (.content emptyDoc (some "W1") (some "")) consoleCfg (.ok ()) "t").metaWrite =
          some m ∧ m.etag = some "W1") := by
  obtain ⟨m, hm, he, _, _, hl⟩ := meta_update resolveId priorMetaFile .absent emptyDoc
    (some "W1") (some "") consoleCfg (.ok ()) "t"
  exact ⟨by decide, m, hm, he (by decide)⟩

/-- C10: the notification method is lowercased once at startup, and every
method value other than telegram, webhook and email, not only the default,
falls through to the console channel: the formatted message goes to
standard output, no network call is attempted, nothing fails and the cycle
continues. -/
theorem notify_method_fallthrough :
    (∀ s, s ≠ "" → NOTIFY_METHOD (some s) = strToLower s) ∧
    (∀ cfg net now newOffers, newOffers ≠ ([] : List Offer) →
        cfg.method ≠ "telegram" → cfg.method ≠ "webhook" → cfg.method ≠ "email" →
        notifyNewOffersE cfg net now newOffers =
          .ok ⟨some (formatMessage now newOffers), none, [formatMessage now newOffers],
            []⟩) := by
  constructor
  · intro s hs
    simp [NOTIFY_METHOD, hs]
  · intro cfg net now newOffers hne h1 h2 h3
    simp [notifyNewOffersE, hne, h1, h2, h3]

theorem notify_method_fallthrough_witness :
    notifyNewOffersE ⟨NOTIFY_METHOD (some "Discord"), none, none, none⟩ (.ok ()) "t"
        [⟨"a", "T", "a"⟩] =
      .ok ⟨some (formatMessage "t" [⟨"a", "T", "a"⟩]), none,
        [formatMessage "t" [⟨"a", "T", "a"⟩]], []⟩ :=
  notify_method_fallthrough.2 ⟨NOTIFY_METHOD (some "Discord"), none, none, none⟩ (.ok ()) "t"
    [⟨"a", "T", "a"⟩] (by decide) (by decide) (by decide) (by decide)

end Stwdo
